import Mathlib

/-!
Shallow embedding of the ToQen queue/token core.

The embedded code:
* `generateTokenNumber` — the client-side token issuance in
  `src/pages/BookAppointment.tsx` (read `total_tokens`, add one, write it
  back; inserts a `(current_token = 0, total_tokens = 1)` row when the
  department has no `queue_status` row yet).
* `advance_queue`, `reset_department_queue` — the PL/pgSQL functions in
  `supabase/migrations/20250715105234_mute_mountain.sql` (second block).
* `update_appointment_status` — the PL/pgSQL function in the first block of
  the same migration file.

Tables are lists of records; SQL `UPDATE ... WHERE` is a map that rewrites
every matching row; `SELECT ... INTO` with no matching row yields `none`
(PL/pgSQL assigns NULL and raises nothing, since no STRICT is used).
The schema (`20250713131431_sparkling_term.sql`) puts a
UNIQUE(hospital_id, department_id) constraint on `queue_status`; the
predicate `KeysNodup` states it where a proof needs it.
-/

namespace ToQen

inductive Status where
  | waiting
  | ready
  | completed
  | cancelled
deriving DecidableEq

/-- A row of the `queue_status` table. -/
structure QueueStatus where
  hospitalId : Nat
  departmentId : Nat
  currentToken : Nat
  totalTokens : Nat
deriving DecidableEq

/-- A row of the `appointments` table (the columns the core logic touches). -/
structure Appointment where
  id : Nat
  hospitalId : Nat
  departmentId : Nat
  tokenNumber : Nat
  status : Status
deriving DecidableEq

/-- A row of the `hospitals` table (the columns the core logic touches). -/
structure Hospital where
  id : Nat
  adminId : Nat
deriving DecidableEq

/-- The database state seen by the queue/token core. -/
structure DB where
  hospitals : List Hospital
  queues : List QueueStatus
  appointments : List Appointment
deriving DecidableEq

inductive DBError where
  | unauthorized
deriving DecidableEq

/-- Result of a PL/pgSQL function call: a value, or a raised exception. -/
inductive DbResult (α : Type) where
  | ok : α → DbResult α
  | error : DBError → DbResult α
deriving DecidableEq

/-- The admin check used by both PL/pgSQL functions:
`EXISTS (SELECT 1 FROM hospitals h WHERE h.id = hospital_id AND h.admin_id = auth.uid())`. -/
def isAdmin (db : DB) (uid hospitalId : Nat) : Bool :=
  db.hospitals.any fun h => decide (h.id = hospitalId ∧ h.adminId = uid)

/-- The row filter `department_id = dept_id AND hospital_id = ...` on `queue_status`. -/
def queueMatches (hospitalId deptId : Nat) (q : QueueStatus) : Bool :=
  decide (q.departmentId = deptId ∧ q.hospitalId = hospitalId)

/-- First `queue_status` row for the pair (what `SELECT ... INTO` / `.single()` reads). -/
def findQueue (db : DB) (hospitalId deptId : Nat) : Option QueueStatus :=
  db.queues.find? (queueMatches hospitalId deptId)

/-- `total_tokens` of the department's queue row, `0` when there is none. -/
def totalOf (db : DB) (hospitalId deptId : Nat) : Nat :=
  match findQueue db hospitalId deptId with
  | some q => q.totalTokens
  | none => 0

/-- `current_token` of the department's queue row, `0` when there is none. -/
def currentOf (db : DB) (hospitalId deptId : Nat) : Nat :=
  match findQueue db hospitalId deptId with
  | some q => q.currentToken
  | none => 0

/-- The row rewrite done by an `UPDATE queue_status SET total_tokens = n WHERE ...` call. -/
def setTotal (hospitalId deptId n : Nat) (r : QueueStatus) : QueueStatus :=
  if queueMatches hospitalId deptId r then { r with totalTokens := n } else r

/-- The row rewrite done by an `UPDATE queue_status SET current_token = n WHERE ...` call. -/
def setCurrent (hospitalId deptId n : Nat) (r : QueueStatus) : QueueStatus :=
  if queueMatches hospitalId deptId r then { r with currentToken := n } else r

/-- The row rewrite done by `UPDATE queue_status SET current_token = 0, total_tokens = 0 WHERE ...`. -/
def zeroQueue (hospitalId deptId : Nat) (r : QueueStatus) : QueueStatus :=
  if queueMatches hospitalId deptId r then { r with currentToken := 0, totalTokens := 0 } else r

/-- The read half of `generateTokenNumber` (the `.select().single()` call). -/
def readTotalTokens (hospitalId deptId : Nat) (db : DB) : Option Nat :=
  (findQueue db hospitalId deptId).map QueueStatus.totalTokens

/-- The write half of `generateTokenNumber` (the `.update()` call). -/
def writeTotalTokens (hospitalId deptId n : Nat) (db : DB) : DB :=
  { db with queues := db.queues.map (setTotal hospitalId deptId n) }

/-- `generateTokenNumber` from `BookAppointment.tsx`: read the row's
`total_tokens`; if the read errors (no row) insert a fresh row with
`current_token = 0, total_tokens = 1` and return 1; otherwise write
`total_tokens := old + 1` back and return it. Two separate network calls,
no lock between the read and the write. -/
def generateTokenNumber (hospitalId deptId : Nat) (db : DB) : Nat × DB :=
  match readTotalTokens hospitalId deptId db with
  | none =>
      (1, { db with queues := db.queues ++ [⟨hospitalId, deptId, 0, 1⟩] })
  | some t =>
      (t + 1, writeTotalTokens hospitalId deptId (t + 1) db)

/-- First `UPDATE appointments` of `advance_queue`:
`SET status = 'ready' WHERE department/hospital match AND token_number = next_token AND status = 'waiting'`. -/
def markReady (hospitalId deptId next : Nat) (a : Appointment) : Appointment :=
  if a.departmentId = deptId ∧ a.hospitalId = hospitalId ∧
      a.tokenNumber = next ∧ a.status = Status.waiting
  then { a with status := Status.ready } else a

/-- Second `UPDATE appointments` of `advance_queue`:
`SET status = 'completed' WHERE department/hospital match AND token_number = next_token - 1 AND status = 'ready'`. -/
def markCompleted (hospitalId deptId next : Nat) (a : Appointment) : Appointment :=
  if a.departmentId = deptId ∧ a.hospitalId = hospitalId ∧
      a.tokenNumber = next - 1 ∧ a.status = Status.ready
  then { a with status := Status.completed } else a

/-- `advance_queue(dept_id, hospital_id)` from the migration: admin check
(raise Unauthorized), `SELECT current_token + 1 INTO next_token` (NULL when
the row is missing — then every later WHERE clause, comparing to NULL,
matches nothing and the function returns NULL), `UPDATE queue_status`,
the two appointment updates, `RETURN next_token`. -/
def advance_queue (uid hospitalId deptId : Nat) (db : DB) : DbResult (Option Nat) × DB :=
  if isAdmin db uid hospitalId then
    match findQueue db hospitalId deptId with
    | none => (.ok none, db)
    | some q =>
        let next := q.currentToken + 1
        let appts1 := db.appointments.map (markReady hospitalId deptId next)
        let appts2 := appts1.map (markCompleted hospitalId deptId next)
        (.ok (some next),
         { db with queues := db.queues.map (setCurrent hospitalId deptId next),
                   appointments := appts2 })
  else (.error .unauthorized, db)

/-- The row rewrite done by `UPDATE appointments SET status = 'cancelled'
WHERE department/hospital match AND status = 'waiting'` in `reset_department_queue`. -/
def cancelWaiting (hospitalId deptId : Nat) (a : Appointment) : Appointment :=
  if a.departmentId = deptId ∧ a.hospitalId = hospitalId ∧ a.status = Status.waiting
  then { a with status := Status.cancelled } else a

/-- `reset_department_queue(dept_id, hospital_id)` from the migration:
admin check, zero the queue row, cancel every `waiting` appointment of the
department. -/
def reset_department_queue (uid hospitalId deptId : Nat) (db : DB) : DbResult Unit × DB :=
  if isAdmin db uid hospitalId then
    (.ok (),
     { db with
       queues := db.queues.map (zeroQueue hospitalId deptId),
       appointments := db.appointments.map (cancelWaiting hospitalId deptId) })
  else (.error .unauthorized, db)

/-- `update_appointment_status` from the migration: look up the
appointment's hospital and the admin's hospital; `IF a != b THEN RETURN
FALSE` fires only when both SELECTs found a row and the ids differ (a NULL
comparison is not TRUE in PL/pgSQL); otherwise the UPDATE runs
unconditionally and TRUE is returned. -/
def update_appointment_status (apptId : Nat) (newStatus : Status) (adminId : Nat) (db : DB) :
    Bool × DB :=
  let appointmentHospitalId :=
    (db.appointments.find? fun a => decide (a.id = apptId)).map Appointment.hospitalId
  let adminHospitalId :=
    (db.hospitals.find? fun h => decide (h.adminId = adminId)).map Hospital.id
  let updated : DB :=
    { db with appointments := db.appointments.map fun a =>
        if a.id = apptId then { a with status := newStatus } else a }
  match appointmentHospitalId, adminHospitalId with
  | some x, some y => if x ≠ y then (false, db) else (true, updated)
  | some _, none => (true, updated)
  | none, some _ => (true, updated)
  | none, none => (true, updated)

/-- The booking flow of `BookAppointment.tsx` (`onSubmit`): generate a token
number, then insert an appointment row with that token and status
`waiting`. -/
def bookAppointment (apptId hospitalId deptId : Nat) (db : DB) : Nat × DB :=
  let r := generateTokenNumber hospitalId deptId db
  (r.1, { r.2 with appointments :=
            r.2.appointments ++ [⟨apptId, hospitalId, deptId, r.1, Status.waiting⟩] })

/-- The core mutating operations, for reachability statements. -/
inductive Op where
  | book (apptId hospitalId deptId : Nat)
  | advance (uid hospitalId deptId : Nat)
  | reset (uid hospitalId deptId : Nat)
deriving DecidableEq

def applyOp (db : DB) (op : Op) : DB :=
  match op with
  | .book apptId h d => (bookAppointment apptId h d db).2
  | .advance uid h d => (advance_queue uid h d db).2
  | .reset uid h d => (reset_department_queue uid h d db).2

def runOps (db : DB) (ops : List Op) : DB :=
  ops.foldl applyOp db

def isBook : Op → Bool
  | .book _ _ _ => true
  | _ => false

def isAdvance : Op → Bool
  | .advance _ _ _ => true
  | _ => false

def isReset : Op → Bool
  | .reset _ _ _ => true
  | _ => false

/-- Sequential (serialized) token issuance: `n` bookings one after another. -/
def seqIssue (hospitalId deptId : Nat) : Nat → DB → List Nat × DB
  | 0, db => ([], db)
  | n + 1, db =>
      let r := generateTokenNumber hospitalId deptId db
      let rest := seqIssue hospitalId deptId n r.2
      (r.1 :: rest.1, rest.2)

/-- The racy interleaving of two `generateTokenNumber` calls for the same
department: both clients perform their read before either performs its
write (the code runs the read and the write as separate network calls with
no lock, so this interleaving is possible). Returns the two tokens handed
out and the final state; `none` when a read finds no queue row. -/
def racePair (hospitalId deptId : Nat) (db : DB) : Option (Nat × Nat × DB) :=
  match readTotalTokens hospitalId deptId db, readTotalTokens hospitalId deptId db with
  | some tA, some tB =>
      let db1 := writeTotalTokens hospitalId deptId (tA + 1) db
      let db2 := writeTotalTokens hospitalId deptId (tB + 1) db1
      some (tA + 1, tB + 1, db2)
  | _, _ => none

/-- Spec §3 invariant `currentToken ≤ totalIssued` over the whole table. -/
def QInv (db : DB) : Prop :=
  ∀ q ∈ db.queues, q.currentToken ≤ q.totalTokens

def sameKey (a b : QueueStatus) : Prop :=
  a.hospitalId = b.hospitalId ∧ a.departmentId = b.departmentId

/-- The UNIQUE(hospital_id, department_id) constraint of the schema. -/
def KeysNodup (db : DB) : Prop :=
  db.queues.Pairwise fun a b => ¬ sameKey a b

def sameDept (a b : Appointment) : Prop :=
  a.hospitalId = b.hospitalId ∧ a.departmentId = b.departmentId

/-- No two appointments of one department share a token number. -/
def TokensUnique (db : DB) : Prop :=
  db.appointments.Pairwise fun a b => sameDept a b → a.tokenNumber ≠ b.tokenNumber

/-- No two non-cancelled appointments of one department share a token number. -/
def NonCancelledTokensUnique (db : DB) : Prop :=
  db.appointments.Pairwise fun a b =>
    a.status ≠ Status.cancelled → b.status ≠ Status.cancelled →
      sameDept a b → a.tokenNumber ≠ b.tokenNumber

/-- Every appointment's token lies in `1..totalIssued` of its department. -/
def TokInv (db : DB) : Prop :=
  ∀ a ∈ db.appointments,
    1 ≤ a.tokenNumber ∧ a.tokenNumber ≤ totalOf db a.hospitalId a.departmentId

def OnlyBookReset (ops : List Op) : Prop :=
  ∀ op ∈ ops, (isBook op || isReset op) = true

def OnlyBookAdvance (ops : List Op) : Prop :=
  ∀ op ∈ ops, (isBook op || isAdvance op) = true

def OnlyAdvance (ops : List Op) : Prop :=
  ∀ op ∈ ops, isAdvance op = true

/-- Fresh state: one hospital (id 1, admin 9), one zeroed queue row for
department 1, no appointments — the state the schema migration initializes. -/
def dbFresh : DB :=
  ⟨[⟨1, 9⟩], [⟨1, 1, 0, 0⟩], []⟩

instance (db : DB) : Decidable (QInv db) := by
  unfold QInv; infer_instance

instance (a b : QueueStatus) : Decidable (sameKey a b) := by
  unfold sameKey; infer_instance

instance (db : DB) : Decidable (KeysNodup db) := by
  unfold KeysNodup; infer_instance

instance (a b : Appointment) : Decidable (sameDept a b) := by
  unfold sameDept; infer_instance

instance (db : DB) : Decidable (TokensUnique db) := by
  unfold TokensUnique; infer_instance

instance (db : DB) : Decidable (NonCancelledTokensUnique db) := by
  unfold NonCancelledTokensUnique; infer_instance

instance (db : DB) : Decidable (TokInv db) := by
  unfold TokInv; infer_instance

instance (ops : List Op) : Decidable (OnlyBookReset ops) := by
  unfold OnlyBookReset; infer_instance

instance (ops : List Op) : Decidable (OnlyBookAdvance ops) := by
  unfold OnlyBookAdvance; infer_instance

instance (ops : List Op) : Decidable (OnlyAdvance ops) := by
  unfold OnlyAdvance; infer_instance

/-! ### Generic list lemmas -/

theorem find?_map_pres {α : Type} (f : α → α) (p : α → Bool) (hf : ∀ x, p (f x) = p x)
    (l : List α) : (l.map f).find? p = (l.find? p).map f := by
  induction l with
  | nil => rfl
  | cons x xs ih =>
      by_cases hx : p x = true
      · rw [List.map_cons, List.find?_cons_of_pos _ (by rw [hf]; exact hx),
          List.find?_cons_of_pos _ hx]
        rfl
      · rw [List.map_cons, List.find?_cons_of_neg _ (by rw [hf]; exact hx),
          List.find?_cons_of_neg _ hx]
        exact ih

theorem find?_map_fix {α : Type} (f : α → α) (p : α → Bool) (hf : ∀ x, p (f x) = p x)
    (hfix : ∀ x, p x = true → f x = x) (l : List α) :
    (l.map f).find? p = l.find? p := by
  rw [find?_map_pres f p hf l]
  cases h : l.find? p with
  | none => rfl
  | some a => simp [hfix a (List.find?_some h)]

theorem mem_map_self {α : Type} {f : α → α} {a : α} {l : List α} (ha : a ∈ l)
    (hfa : f a = a) : a ∈ l.map f := by
  have h := List.mem_map_of_mem f ha
  rwa [hfa] at h

theorem find?_eq_some_of_pairwise {α : Type} {p : α → Bool} {R : α → α → Prop}
    (hR : ∀ x y, p x = true → p y = true → R x y) {r : α} (hpr : p r = true) :
    ∀ {l : List α}, l.Pairwise (fun x y => ¬ R x y) → r ∈ l → l.find? p = some r := by
  intro l
  induction l with
  | nil => intro _ hr; simp at hr
  | cons x xs ih =>
      intro hl hr
      rw [List.pairwise_cons] at hl
      rcases List.mem_cons.mp hr with rfl | hmem
      · exact List.find?_cons_of_pos _ hpr
      · by_cases hpx : p x = true
        · exact absurd (hR x r hpx hpr) (hl.1 r hmem)
        · rw [List.find?_cons_of_neg _ hpx]
          exact ih hl.2 hmem

/-! ### Facts about the row rewrites -/

theorem queueMatches_iff {hospitalId deptId : Nat} {q : QueueStatus} :
    queueMatches hospitalId deptId q = true ↔
      q.departmentId = deptId ∧ q.hospitalId = hospitalId := by
  simp [queueMatches]

theorem setTotal_matches (hospitalId deptId n h' d' : Nat) (r : QueueStatus) :
    queueMatches h' d' (setTotal hospitalId deptId n r) = queueMatches h' d' r := by
  unfold setTotal; split <;> simp [queueMatches]

theorem setCurrent_matches (hospitalId deptId n h' d' : Nat) (r : QueueStatus) :
    queueMatches h' d' (setCurrent hospitalId deptId n r) = queueMatches h' d' r := by
  unfold setCurrent; split <;> simp [queueMatches]

theorem zeroQueue_matches (hospitalId deptId h' d' : Nat) (r : QueueStatus) :
    queueMatches h' d' (zeroQueue hospitalId deptId r) = queueMatches h' d' r := by
  unfold zeroQueue; split <;> simp [queueMatches]

theorem setTotal_fix {hospitalId deptId n : Nat} {r : QueueStatus}
    (hr : ¬(r.departmentId = deptId ∧ r.hospitalId = hospitalId)) :
    setTotal hospitalId deptId n r = r := by
  unfold setTotal queueMatches
  rw [if_neg]
  simpa using hr

theorem setCurrent_fix {hospitalId deptId n : Nat} {r : QueueStatus}
    (hr : ¬(r.departmentId = deptId ∧ r.hospitalId = hospitalId)) :
    setCurrent hospitalId deptId n r = r := by
  unfold setCurrent queueMatches
  rw [if_neg]
  simpa using hr

theorem zeroQueue_fix {hospitalId deptId : Nat} {r : QueueStatus}
    (hr : ¬(r.departmentId = deptId ∧ r.hospitalId = hospitalId)) :
    zeroQueue hospitalId deptId r = r := by
  unfold zeroQueue queueMatches
  rw [if_neg]
  simpa using hr

theorem setCurrent_totalTokens (hospitalId deptId n : Nat) (r : QueueStatus) :
    (setCurrent hospitalId deptId n r).totalTokens = r.totalTokens := by
  unfold setCurrent; split <;> rfl

theorem markReady_hospitalId (hospitalId deptId n : Nat) (a : Appointment) :
    (markReady hospitalId deptId n a).hospitalId = a.hospitalId := by
  unfold markReady; split <;> rfl

theorem markReady_departmentId (hospitalId deptId n : Nat) (a : Appointment) :
    (markReady hospitalId deptId n a).departmentId = a.departmentId := by
  unfold markReady; split <;> rfl

theorem markReady_tokenNumber (hospitalId deptId n : Nat) (a : Appointment) :
    (markReady hospitalId deptId n a).tokenNumber = a.tokenNumber := by
  unfold markReady; split <;> rfl

theorem markReady_id (hospitalId deptId n : Nat) (a : Appointment) :
    (markReady hospitalId deptId n a).id = a.id := by
  unfold markReady; split <;> rfl

theorem markCompleted_hospitalId (hospitalId deptId n : Nat) (a : Appointment) :
    (markCompleted hospitalId deptId n a).hospitalId = a.hospitalId := by
  unfold markCompleted; split <;> rfl

theorem markCompleted_departmentId (hospitalId deptId n : Nat) (a : Appointment) :
    (markCompleted hospitalId deptId n a).departmentId = a.departmentId := by
  unfold markCompleted; split <;> rfl

theorem markCompleted_tokenNumber (hospitalId deptId n : Nat) (a : Appointment) :
    (markCompleted hospitalId deptId n a).tokenNumber = a.tokenNumber := by
  unfold markCompleted; split <;> rfl

theorem markCompleted_id (hospitalId deptId n : Nat) (a : Appointment) :
    (markCompleted hospitalId deptId n a).id = a.id := by
  unfold markCompleted; split <;> rfl

theorem cancelWaiting_hospitalId (hospitalId deptId : Nat) (a : Appointment) :
    (cancelWaiting hospitalId deptId a).hospitalId = a.hospitalId := by
  unfold cancelWaiting; split <;> rfl

theorem cancelWaiting_departmentId (hospitalId deptId : Nat) (a : Appointment) :
    (cancelWaiting hospitalId deptId a).departmentId = a.departmentId := by
  unfold cancelWaiting; split <;> rfl

theorem cancelWaiting_tokenNumber (hospitalId deptId : Nat) (a : Appointment) :
    (cancelWaiting hospitalId deptId a).tokenNumber = a.tokenNumber := by
  unfold cancelWaiting; split <;> rfl

theorem cancelWaiting_id (hospitalId deptId : Nat) (a : Appointment) :
    (cancelWaiting hospitalId deptId a).id = a.id := by
  unfold cancelWaiting; split <;> rfl

/-- The two sequential appointment UPDATEs of `advance_queue`, with
`next = c + 1`, act on a single row like one case split: a Waiting row with
token `next` turns Ready, a Ready row with token `next - 1 = c` turns
Completed, everything else is untouched (the row just turned Ready has
token `c + 1 ≠ c`, so the second UPDATE never re-hits it). -/
theorem markCompleted_markReady (hospitalId deptId c : Nat) (a : Appointment) :
    markCompleted hospitalId deptId (c + 1) (markReady hospitalId deptId (c + 1) a) =
      if a.departmentId = deptId ∧ a.hospitalId = hospitalId ∧
          a.tokenNumber = c + 1 ∧ a.status = Status.waiting
      then { a with status := Status.ready }
      else if a.departmentId = deptId ∧ a.hospitalId = hospitalId ∧
          a.tokenNumber = c ∧ a.status = Status.ready
      then { a with status := Status.completed }
      else a := by
  by_cases h1 : a.departmentId = deptId ∧ a.hospitalId = hospitalId ∧
      a.tokenNumber = c + 1 ∧ a.status = Status.waiting
  · obtain ⟨hd, hh, ht, hs⟩ := h1
    simp [markReady, markCompleted, hd, hh, ht, hs]
  · rw [if_neg h1]
    unfold markReady markCompleted
    rw [if_neg h1]
    simp only [Nat.add_sub_cancel]

theorem generateTokenNumber_appointments (hospitalId deptId : Nat) (db : DB) :
    (generateTokenNumber hospitalId deptId db).2.appointments = db.appointments := by
  unfold generateTokenNumber
  cases readTotalTokens hospitalId deptId db <;> rfl

/-- After a successful read-and-write issuance, the department's queue row
has its `total_tokens` bumped by one. -/
theorem findQueue_gen_some {hospitalId deptId : Nat} {db : DB} {q : QueueStatus}
    (hQ : findQueue db hospitalId deptId = some q) :
    (generateTokenNumber hospitalId deptId db).1 = q.totalTokens + 1 ∧
      findQueue (generateTokenNumber hospitalId deptId db).2 hospitalId deptId =
        some { q with totalTokens := q.totalTokens + 1 } := by
  have hread : readTotalTokens hospitalId deptId db = some q.totalTokens := by
    unfold readTotalTokens; rw [hQ]; rfl
  have hq : queueMatches hospitalId deptId q = true := List.find?_some hQ
  unfold generateTokenNumber
  rw [hread]
  refine ⟨rfl, ?_⟩
  show (writeTotalTokens hospitalId deptId (q.totalTokens + 1) db).queues.find? _ = _
  unfold writeTotalTokens
  rw [show ({ db with queues := db.queues.map (setTotal hospitalId deptId (q.totalTokens + 1)) } : DB).queues
      = db.queues.map (setTotal hospitalId deptId (q.totalTokens + 1)) from rfl]
  rw [find?_map_pres _ _ (setTotal_matches hospitalId deptId _ hospitalId deptId)]
  rw [show db.queues.find? (queueMatches hospitalId deptId) = some q from hQ]
  simp [setTotal, hq]

/-- When the department has no queue row, issuance inserts a fresh
`(current_token = 0, total_tokens = 1)` row and returns token 1. -/
theorem findQueue_gen_none {hospitalId deptId : Nat} {db : DB}
    (hQ : findQueue db hospitalId deptId = none) :
    (generateTokenNumber hospitalId deptId db).1 = 1 ∧
      findQueue (generateTokenNumber hospitalId deptId db).2 hospitalId deptId =
        some ⟨hospitalId, deptId, 0, 1⟩ := by
  have hread : readTotalTokens hospitalId deptId db = none := by
    unfold readTotalTokens; rw [hQ]; rfl
  unfold generateTokenNumber
  rw [hread]
  refine ⟨rfl, ?_⟩
  show (db.queues ++ [(⟨hospitalId, deptId, 0, 1⟩ : QueueStatus)]).find? (queueMatches hospitalId deptId) = _
  rw [List.find?_append, show db.queues.find? (queueMatches hospitalId deptId) = none from hQ]
  simp [queueMatches]

/-- A queue-table map that only rewrites rows of department `(h, d)` leaves
lookup of any other department unchanged. -/
theorem findQueue_map_other {hospitalId deptId h' d' : Nat} (f : QueueStatus → QueueStatus)
    (hpres : ∀ r, queueMatches h' d' (f r) = queueMatches h' d' r)
    (hfix : ∀ r, ¬(r.departmentId = deptId ∧ r.hospitalId = hospitalId) → f r = r)
    (hne : ¬(h' = hospitalId ∧ d' = deptId)) (l : List QueueStatus) :
    (l.map f).find? (queueMatches h' d') = l.find? (queueMatches h' d') := by
  apply find?_map_fix f _ hpres
  intro r hr
  apply hfix
  rw [queueMatches_iff] at hr
  rintro ⟨hd, hh⟩
  exact hne ⟨by rw [← hr.2, hh], by rw [← hr.1, hd]⟩

/-- Full behaviour of `advance_queue` on an authorized call with an existing
queue row: returns `old currentToken + 1`, bumps the row, and rewrites the
appointments as a single case split (shared by several claim theorems). -/
theorem advance_queue_some (uid hospitalId deptId : Nat) (db : DB) (q : QueueStatus)
    (hA : isAdmin db uid hospitalId = true)
    (hQ : findQueue db hospitalId deptId = some q) :
    (advance_queue uid hospitalId deptId db).1 = DbResult.ok (some (q.currentToken + 1)) ∧
      findQueue (advance_queue uid hospitalId deptId db).2 hospitalId deptId =
        some { q with currentToken := q.currentToken + 1 } ∧
      (advance_queue uid hospitalId deptId db).2.appointments =
        db.appointments.map (fun a =>
          if a.departmentId = deptId ∧ a.hospitalId = hospitalId ∧
              a.tokenNumber = q.currentToken + 1 ∧ a.status = Status.waiting
          then { a with status := Status.ready }
          else if a.departmentId = deptId ∧ a.hospitalId = hospitalId ∧
              a.tokenNumber = q.currentToken ∧ a.status = Status.ready
          then { a with status := Status.completed }
          else a) := by
  have hq : queueMatches hospitalId deptId q = true := List.find?_some hQ
  unfold advance_queue
  rw [hA, hQ]
  refine ⟨rfl, ?_, ?_⟩
  · show (db.queues.map (setCurrent hospitalId deptId (q.currentToken + 1))).find?
        (queueMatches hospitalId deptId) = _
    rw [find?_map_pres _ _ (setCurrent_matches hospitalId deptId _ hospitalId deptId),
      show db.queues.find? (queueMatches hospitalId deptId) = some q from hQ]
    simp [setCurrent, hq]
  · show (db.appointments.map (markReady hospitalId deptId (q.currentToken + 1))).map
        (markCompleted hospitalId deptId (q.currentToken + 1)) = _
    rw [List.map_map]
    apply List.map_congr_left
    intro a _
    simp only [Function.comp_apply]
    exact markCompleted_markReady hospitalId deptId q.currentToken a

/-! ### Concrete states for counterexamples and witnesses -/

/-- One hospital (admin 9), no queue row, one waiting appointment. -/
def dbNoQueue : DB :=
  ⟨[⟨1, 9⟩], [], [⟨5, 1, 1, 3, Status.waiting⟩]⟩

/-- One hospital (admin 9), queue row with `currentToken = totalIssued = 1`,
and the appointment with token 1 currently Ready — exactly the state reached
from fresh by one booking followed by one advance. -/
def dbServed : DB :=
  ⟨[⟨1, 9⟩], [⟨1, 1, 1, 1⟩], [⟨5, 1, 1, 1, Status.ready⟩]⟩

/-- One hospital (admin 9), one Completed appointment. -/
def dbDone : DB :=
  ⟨[⟨1, 9⟩], [⟨1, 1, 2, 1⟩], [⟨5, 1, 1, 1, Status.completed⟩]⟩

/-! ### Claim theorems -/

/-- C4: for an authorized caller and an existing queue row, `AdvanceQueue`
returns `next = currentToken + 1`, persists `currentToken = next`, turns the
Waiting appointment with token `next` Ready, turns the Ready appointment
with token `next - 1` Completed, and leaves every other appointment's
status unchanged. -/
theorem C4_advance_queue_spec (uid hospitalId deptId : Nat) (db : DB) (q : QueueStatus)
    (hA : isAdmin db uid hospitalId = true)
    (hQ : findQueue db hospitalId deptId = some q) :
    (advance_queue uid hospitalId deptId db).1 = DbResult.ok (some (q.currentToken + 1)) ∧
      findQueue (advance_queue uid hospitalId deptId db).2 hospitalId deptId =
        some { q with currentToken := q.currentToken + 1 } ∧
      (advance_queue uid hospitalId deptId db).2.appointments =
        db.appointments.map (fun a =>
          if a.departmentId = deptId ∧ a.hospitalId = hospitalId ∧
              a.tokenNumber = q.currentToken + 1 ∧ a.status = Status.waiting
          then { a with status := Status.ready }
          else if a.departmentId = deptId ∧ a.hospitalId = hospitalId ∧
              a.tokenNumber = q.currentToken ∧ a.status = Status.ready
          then { a with status := Status.completed }
          else a) :=
  advance_queue_some uid hospitalId deptId db q hA hQ

/-- C4 witness: on `dbServed` (current token 1 being served) the next call
returns 2 and completes the served appointment. -/
theorem C4_advance_queue_spec_witness :
    isAdmin dbServed 9 1 = true ∧ findQueue dbServed 1 1 = some ⟨1, 1, 1, 1⟩ ∧
      ((advance_queue 9 1 1 dbServed).1 = DbResult.ok (some 2) ∧
        findQueue (advance_queue 9 1 1 dbServed).2 1 1 = some ⟨1, 1, 2, 1⟩ ∧
        (advance_queue 9 1 1 dbServed).2.appointments =
          dbServed.appointments.map (fun a =>
            if a.departmentId = 1 ∧ a.hospitalId = 1 ∧
                a.tokenNumber = 2 ∧ a.status = Status.waiting
            then { a with status := Status.ready }
            else if a.departmentId = 1 ∧ a.hospitalId = 1 ∧
                a.tokenNumber = 1 ∧ a.status = Status.ready
            then { a with status := Status.completed }
            else a)) :=
  ⟨by decide, by decide,
    C4_advance_queue_spec 9 1 1 dbServed ⟨1, 1, 1, 1⟩ (by decide) (by decide)⟩

/-- C6 counterexample: in `dbServed`, `currentToken == totalIssued` (both 1),
the caller is an authorized admin and the queue row exists, yet
`AdvanceQueue` does alter an appointment: the Ready appointment with token 1
becomes Completed. The claim's "leaves the status of every appointment
unchanged" is false. -/
theorem C6_counterexample :
    isAdmin dbServed 9 1 = true ∧ findQueue dbServed 1 1 = some ⟨1, 1, 1, 1⟩ ∧
      (advance_queue 9 1 1 dbServed).2.appointments = [⟨5, 1, 1, 1, Status.completed⟩] := by
  decide

/-- C6 (amended): with `totalIssued ≤ currentToken` (which covers
`currentToken == totalIssued`) and no Waiting appointment of the department
holding a token above `totalIssued` (true in every reachable state),
`AdvanceQueue` increments `currentToken`, raises no error, promotes no
appointment to Ready, and the only possible change is that the Ready
appointment with token equal to the old `currentToken` becomes Completed. -/
theorem C6_advance_beyond_total (uid hospitalId deptId : Nat) (db : DB) (q : QueueStatus)
    (hA : isAdmin db uid hospitalId = true)
    (hQ : findQueue db hospitalId deptId = some q)
    (hle : q.totalTokens ≤ q.currentToken)
    (hW : ∀ a ∈ db.appointments, a.departmentId = deptId → a.hospitalId = hospitalId →
        a.status = Status.waiting → a.tokenNumber ≤ q.totalTokens) :
    (advance_queue uid hospitalId deptId db).1 = DbResult.ok (some (q.currentToken + 1)) ∧
      findQueue (advance_queue uid hospitalId deptId db).2 hospitalId deptId =
        some { q with currentToken := q.currentToken + 1 } ∧
      (advance_queue uid hospitalId deptId db).2.appointments =
        db.appointments.map (fun a =>
          if a.departmentId = deptId ∧ a.hospitalId = hospitalId ∧
              a.tokenNumber = q.currentToken ∧ a.status = Status.ready
          then { a with status := Status.completed }
          else a) := by
  obtain ⟨h1, h2, h3⟩ := advance_queue_some uid hospitalId deptId db q hA hQ
  refine ⟨h1, h2, ?_⟩
  rw [h3]
  apply List.map_congr_left
  intro a ha
  rw [if_neg]
  rintro ⟨hd, hh, ht, hs⟩
  have hbound := hW a ha hd hh hs
  omega

/-- C6 witness: a Ready appointment with a token below `currentToken` and an
empty queue beyond `totalIssued`; the advance errors nowhere and changes no
appointment. -/
theorem C6_advance_beyond_total_witness :
    isAdmin dbDone 9 1 = true ∧ findQueue dbDone 1 1 = some ⟨1, 1, 2, 1⟩ ∧
      (1 : Nat) ≤ 2 ∧
      ((advance_queue 9 1 1 dbDone).1 = DbResult.ok (some 3) ∧
        findQueue (advance_queue 9 1 1 dbDone).2 1 1 = some ⟨1, 1, 3, 1⟩ ∧
        (advance_queue 9 1 1 dbDone).2.appointments =
          dbDone.appointments.map (fun a =>
            if a.departmentId = 1 ∧ a.hospitalId = 1 ∧
                a.tokenNumber = 2 ∧ a.status = Status.ready
            then { a with status := Status.completed }
            else a)) :=
  ⟨by decide, by decide, by decide,
    C6_advance_beyond_total 9 1 1 dbDone ⟨1, 1, 2, 1⟩ (by decide) (by decide) (by decide)
      (by decide)⟩

/-- C7 counterexample: with an authorized caller and no queue row for the
department, `advance_queue` does not fail: `SELECT ... INTO` leaves
`next_token` NULL, every UPDATE matches nothing, and the call returns NULL
with the state untouched — it returns a value instead of raising
`DepartmentNotFound`. -/
theorem C7_counterexample :
    advance_queue 9 1 1 dbNoQueue = (DbResult.ok none, dbNoQueue) := by
  decide

/-- C7 (amended): for an authorized caller on a department with no queue
row, `AdvanceQueue` raises no error and changes no state: it silently
returns NULL. -/
theorem C7_missing_queue_returns_null (uid hospitalId deptId : Nat) (db : DB)
    (hA : isAdmin db uid hospitalId = true)
    (hQ : findQueue db hospitalId deptId = none) :
    advance_queue uid hospitalId deptId db = (DbResult.ok none, db) := by
  unfold advance_queue
  rw [hA, hQ]
  rfl

/-- C7 witness. -/
theorem C7_missing_queue_returns_null_witness :
    isAdmin dbNoQueue 9 1 = true ∧ findQueue dbNoQueue 1 1 = none ∧
      advance_queue 9 1 1 dbNoQueue = (DbResult.ok none, dbNoQueue) :=
  ⟨by decide, by decide, C7_missing_queue_returns_null 9 1 1 dbNoQueue (by decide) (by decide)⟩

/-- C8: a caller who does not administer the hospital gets `Unauthorized`
from both `AdvanceQueue` and `ResetQueue`, and the state (queue rows and
appointments alike) is exactly the state before the call. -/
theorem C8_unauthorized_noop (uid hospitalId deptId : Nat) (db : DB)
    (hA : isAdmin db uid hospitalId = false) :
    advance_queue uid hospitalId deptId db = (DbResult.error DBError.unauthorized, db) ∧
      reset_department_queue uid hospitalId deptId db =
        (DbResult.error DBError.unauthorized, db) := by
  unfold advance_queue reset_department_queue
  rw [hA]
  exact ⟨rfl, rfl⟩

/-- C8 witness: user 7 is not the admin of hospital 1. -/
theorem C8_unauthorized_noop_witness :
    isAdmin dbServed 7 1 = false ∧
      (advance_queue 7 1 1 dbServed = (DbResult.error DBError.unauthorized, dbServed) ∧
        reset_department_queue 7 1 1 dbServed =
          (DbResult.error DBError.unauthorized, dbServed)) :=
  ⟨by decide, C8_unauthorized_noop 7 1 1 dbServed (by decide)⟩

/-- C9: for an authorized caller, `ResetQueue` zeroes the department's
`currentToken` and `totalIssued`, cancels exactly the department's Waiting
appointments (Ready, Completed and already-Cancelled ones keep their
status), and leaves every other department's queue row unchanged. -/
theorem C9_reset_queue_spec (uid hospitalId deptId : Nat) (db : DB) (q : QueueStatus)
    (hA : isAdmin db uid hospitalId = true)
    (hQ : findQueue db hospitalId deptId = some q) :
    (reset_department_queue uid hospitalId deptId db).1 = DbResult.ok () ∧
      findQueue (reset_department_queue uid hospitalId deptId db).2 hospitalId deptId =
        some { q with currentToken := 0, totalTokens := 0 } ∧
      ((reset_department_queue uid hospitalId deptId db).2.appointments =
        db.appointments.map (fun a =>
          if a.departmentId = deptId ∧ a.hospitalId = hospitalId ∧ a.status = Status.waiting
          then { a with status := Status.cancelled }
          else a)) ∧
      ∀ h' d', ¬(h' = hospitalId ∧ d' = deptId) →
        findQueue (reset_department_queue uid hospitalId deptId db).2 h' d' =
          findQueue db h' d' := by
  have hq : queueMatches hospitalId deptId q = true := List.find?_some hQ
  unfold reset_department_queue
  rw [hA]
  refine ⟨rfl, ?_, ?_, ?_⟩
  · show (db.queues.map (zeroQueue hospitalId deptId)).find?
        (queueMatches hospitalId deptId) = _
    rw [find?_map_pres _ _ (zeroQueue_matches hospitalId deptId hospitalId deptId),
      show db.queues.find? (queueMatches hospitalId deptId) = some q from hQ]
    simp [zeroQueue, hq]
  · show db.appointments.map (cancelWaiting hospitalId deptId) = _
    apply List.map_congr_left
    intro a _
    rfl
  · intro h' d' hne
    show (db.queues.map (zeroQueue hospitalId deptId)).find? (queueMatches h' d') = _
    exact findQueue_map_other (zeroQueue hospitalId deptId)
      (zeroQueue_matches hospitalId deptId h' d') (fun r hr => zeroQueue_fix hr) hne db.queues

/-- C9 witness: resetting `dbServed` zeroes the row; the single Ready
appointment is untouched. -/
theorem C9_reset_queue_spec_witness :
    isAdmin dbServed 9 1 = true ∧ findQueue dbServed 1 1 = some ⟨1, 1, 1, 1⟩ ∧
      ((reset_department_queue 9 1 1 dbServed).1 = DbResult.ok () ∧
        findQueue (reset_department_queue 9 1 1 dbServed).2 1 1 = some ⟨1, 1, 0, 0⟩ ∧
        ((reset_department_queue 9 1 1 dbServed).2.appointments =
          dbServed.appointments.map (fun a =>
            if a.departmentId = 1 ∧ a.hospitalId = 1 ∧ a.status = Status.waiting
            then { a with status := Status.cancelled }
            else a)) ∧
        ∀ h' d', ¬(h' = 1 ∧ d' = 1) →
          findQueue (reset_department_queue 9 1 1 dbServed).2 h' d' =
            findQueue dbServed h' d') :=
  ⟨by decide, by decide, C9_reset_queue_spec 9 1 1 dbServed ⟨1, 1, 1, 1⟩ (by decide) (by decide)⟩

/-! ### Rows not touched by the appointment rewrites -/

theorem markReady_fix_status {hospitalId deptId n : Nat} {a : Appointment}
    (hs : a.status ≠ Status.waiting) : markReady hospitalId deptId n a = a := by
  unfold markReady
  rw [if_neg]
  rintro ⟨_, _, _, h4⟩
  exact hs h4

theorem markReady_fix_token {hospitalId deptId n : Nat} {a : Appointment}
    (ht : a.tokenNumber ≠ n) : markReady hospitalId deptId n a = a := by
  unfold markReady
  rw [if_neg]
  rintro ⟨_, _, h3, _⟩
  exact ht h3

theorem markCompleted_fix_status {hospitalId deptId n : Nat} {a : Appointment}
    (hs : a.status ≠ Status.ready) : markCompleted hospitalId deptId n a = a := by
  unfold markCompleted
  rw [if_neg]
  rintro ⟨_, _, _, h4⟩
  exact hs h4

theorem cancelWaiting_fix_status {hospitalId deptId : Nat} {a : Appointment}
    (hs : a.status ≠ Status.waiting) : cancelWaiting hospitalId deptId a = a := by
  unfold cancelWaiting
  rw [if_neg]
  rintro ⟨_, _, h3⟩
  exact hs h3

/-- Issuance always returns `total_tokens + 1` of the moment of its read —
`current_token` is never consulted. -/
theorem generateTokenNumber_result (hospitalId deptId : Nat) (db : DB) :
    (generateTokenNumber hospitalId deptId db).1 = totalOf db hospitalId deptId + 1 := by
  unfold generateTokenNumber readTotalTokens totalOf
  cases h : findQueue db hospitalId deptId <;> simp [h]

/-- `generateTokenNumber` is literally a read followed by a write: when the
read returns `t`, the call returns `t + 1` and the state after it is exactly
the state with `total_tokens` overwritten by `t + 1`. This decomposition is
what `racePair` interleaves. -/
theorem generateTokenNumber_is_read_then_write (hospitalId deptId : Nat) (db : DB) (t : Nat)
    (h : readTotalTokens hospitalId deptId db = some t) :
    generateTokenNumber hospitalId deptId db =
      (t + 1, writeTotalTokens hospitalId deptId (t + 1) db) := by
  unfold generateTokenNumber
  rw [h]

/-- C1 counterexample: from the fresh state, the interleaving in which both
booking clients perform their `total_tokens` read before either performs its
write hands token 1 to both callers, and the final counter records a single
issued token — duplicate tokens and a lost update, so issuance is not
serialized and `{1, ..., n}` is not guaranteed under concurrency. -/
theorem C1_counterexample :
    racePair 1 1 dbFresh = some (1, 1, ⟨[⟨1, 9⟩], [⟨1, 1, 0, 1⟩], []⟩) := by
  decide

/-- C2 counterexample: the state after a single authorized `AdvanceQueue`
on the fresh queue is reachable, and there `currentToken = 1 >
totalIssued = 0`: the invariant `currentToken ≤ totalIssued` does not hold
in every reachable state. -/
theorem C2_counterexample :
    ¬ QInv (runOps dbFresh [Op.advance 9 1 1]) := by
  decide

/-- C3 counterexample: book (token 1), advance (it turns Ready), reset
(`totalIssued` back to 0; the Ready appointment is not cancelled), book
again (token 1 again): two non-cancelled appointments of the same
department now share token 1. -/
theorem C3_counterexample :
    ¬ NonCancelledTokensUnique
      (runOps dbFresh
        [Op.book 100 1 1, Op.advance 9 1 1, Op.reset 9 1 1, Op.book 101 1 1]) := by
  decide

/-- C5 counterexample: `dbDone` holds a Completed appointment; the
status-update operation exposed to admins (`update_appointment_status`)
moves it back to Waiting and reports success — a terminal state is left. -/
theorem C5_counterexample :
    dbDone.appointments = [⟨5, 1, 1, 1, Status.completed⟩] ∧
      (update_appointment_status 5 Status.waiting 9 dbDone).1 = true ∧
      (update_appointment_status 5 Status.waiting 9 dbDone).2.appointments =
        [⟨5, 1, 1, 1, Status.waiting⟩] := by
  decide

/-- C5 (amended): booking, `AdvanceQueue` and `ResetQueue` never change the
status of a Completed or Cancelled appointment — the record survives every
core operation unchanged; only `update_appointment_status` can leave a
terminal state. -/
theorem C5_core_ops_preserve_terminal (db : DB) (op : Op) (a : Appointment)
    (ha : a ∈ db.appointments)
    (hterm : a.status = Status.completed ∨ a.status = Status.cancelled) :
    a ∈ (applyOp db op).appointments := by
  have hnw : a.status ≠ Status.waiting := by
    rcases hterm with h | h <;> rw [h] <;> intro hc <;> cases hc
  have hnr : a.status ≠ Status.ready := by
    rcases hterm with h | h <;> rw [h] <;> intro hc <;> cases hc
  cases op with
  | book apptId h d =>
      show a ∈ (bookAppointment apptId h d db).2.appointments
      unfold bookAppointment
      apply List.mem_append_left
      rw [generateTokenNumber_appointments]
      exact ha
  | advance uid h d =>
      show a ∈ (advance_queue uid h d db).2.appointments
      unfold advance_queue
      by_cases hA : isAdmin db uid h = true
      · rw [hA]
        cases hQ : findQueue db h d with
        | none => exact ha
        | some q =>
            apply mem_map_self (mem_map_self ha (markReady_fix_status hnw))
            exact markCompleted_fix_status hnr
      · rw [Bool.not_eq_true] at hA
        rw [hA]
        exact ha
  | reset uid h d =>
      show a ∈ (reset_department_queue uid h d db).2.appointments
      unfold reset_department_queue
      by_cases hA : isAdmin db uid h = true
      · rw [hA]
        exact mem_map_self ha (cancelWaiting_fix_status hnw)
      · rw [Bool.not_eq_true] at hA
        rw [hA]
        exact ha

/-- C5 witness: the Completed appointment of `dbDone` survives an advance. -/
theorem C5_core_ops_preserve_terminal_witness :
    (⟨5, 1, 1, 1, Status.completed⟩ : Appointment) ∈ dbDone.appointments ∧
      (⟨5, 1, 1, 1, Status.completed⟩ : Appointment) ∈
        (applyOp dbDone (Op.advance 9 1 1)).appointments :=
  ⟨by decide,
    C5_core_ops_preserve_terminal dbDone (Op.advance 9 1 1) ⟨5, 1, 1, 1, Status.completed⟩
      (by decide) (Or.inl rfl)⟩

/-- Serialized issuance: starting from a row with `total_tokens = T`, the
`i`-th of `n` back-to-back calls returns `T + i`. -/
theorem seqIssue_results (hospitalId deptId : Nat) :
    ∀ (n : Nat) (db : DB) (q : QueueStatus), findQueue db hospitalId deptId = some q →
      (seqIssue hospitalId deptId n db).1 =
        (List.range n).map (fun i => q.totalTokens + i + 1) := by
  intro n
  induction n with
  | zero => intro db q _; rfl
  | succ n ih =>
      intro db q hQ
      obtain ⟨h1, h2⟩ := findQueue_gen_some hQ
      show ((generateTokenNumber hospitalId deptId db).1 ::
          (seqIssue hospitalId deptId n (generateTokenNumber hospitalId deptId db).2).1) = _
      rw [ih (generateTokenNumber hospitalId deptId db).2 _ h2, h1]
      rw [List.range_succ_eq_map, List.map_cons, List.map_map]
      congr 1
      apply List.map_congr_left
      intro i _
      simp only [Function.comp_apply]
      omega

/-- C1 (amended): issuance is an unsynchronized client-side read-then-write
(see `generateTokenNumber_is_read_then_write` and `C1_counterexample`), so
two interleaved calls can receive the same token; but when the calls are
serialized — each completes before the next begins — `n` issuances starting
from a fresh counter return exactly the tokens `1, ..., n`, with no
duplicate and no gap. -/
theorem C1_sequential_issue (hospitalId deptId n : Nat) (db : DB) (q : QueueStatus)
    (hQ : findQueue db hospitalId deptId = some q) (h0 : q.totalTokens = 0) :
    (seqIssue hospitalId deptId n db).1 = (List.range n).map (fun i => i + 1) ∧
      ((seqIssue hospitalId deptId n db).1).Nodup := by
  have h := seqIssue_results hospitalId deptId n db q hQ
  rw [h0] at h
  constructor
  · rw [h]
    apply List.map_congr_left
    intro i _
    omega
  · rw [h]
    exact List.Nodup.map (fun x y hxy => by omega) (List.nodup_range n)

/-- C1 witness: five serialized issuances from the fresh state return
`[1, 2, 3, 4, 5]`. -/
theorem C1_sequential_issue_witness :
    findQueue dbFresh 1 1 = some ⟨1, 1, 0, 0⟩ ∧
      ((seqIssue 1 1 5 dbFresh).1 = (List.range 5).map (fun i => i + 1) ∧
        ((seqIssue 1 1 5 dbFresh).1).Nodup) :=
  ⟨by decide, C1_sequential_issue 1 1 5 dbFresh ⟨1, 1, 0, 0⟩ (by decide) (by decide)⟩

/-! ### Preservation of the schema's UNIQUE(hospital_id, department_id) key -/

theorem queueMatches_sameKey {hospitalId deptId : Nat} :
    ∀ x y : QueueStatus, queueMatches hospitalId deptId x = true →
      queueMatches hospitalId deptId y = true → sameKey x y := by
  intro x y hx hy
  rw [queueMatches_iff] at hx hy
  exact ⟨hx.2.trans hy.2.symm, hx.1.trans hy.1.symm⟩

theorem sameKey_setTotal (hospitalId deptId n : Nat) (a b : QueueStatus) :
    sameKey (setTotal hospitalId deptId n a) (setTotal hospitalId deptId n b) ↔ sameKey a b := by
  unfold setTotal sameKey
  split <;> split <;> simp

theorem sameKey_zeroQueue (hospitalId deptId : Nat) (a b : QueueStatus) :
    sameKey (zeroQueue hospitalId deptId a) (zeroQueue hospitalId deptId b) ↔ sameKey a b := by
  unfold zeroQueue sameKey
  split <;> split <;> simp

/-- Token issuance keeps `currentToken ≤ totalIssued` on every row and keeps
queue keys unique. -/
theorem gen_QInv_keys (hospitalId deptId : Nat) (db : DB)
    (h1 : QInv db) (h2 : KeysNodup db) :
    QInv (generateTokenNumber hospitalId deptId db).2 ∧
      KeysNodup (generateTokenNumber hospitalId deptId db).2 := by
  unfold generateTokenNumber
  cases hr : readTotalTokens hospitalId deptId db with
  | none =>
      have hfq : findQueue db hospitalId deptId = none := by
        unfold readTotalTokens at hr
        exact Option.map_eq_none'.mp hr
      constructor
      · intro q hq
        rcases List.mem_append.mp hq with h | h
        · exact h1 q h
        · rw [List.mem_singleton] at h
          subst h
          exact Nat.zero_le 1
      · have h2' : db.queues.Pairwise (fun x y => ¬ sameKey x y) := h2
        show (db.queues ++ [(⟨hospitalId, deptId, 0, 1⟩ : QueueStatus)]).Pairwise _
        rw [List.pairwise_append]
        refine ⟨h2', by simp, ?_⟩
        intro x hx b hb
        rw [List.mem_singleton] at hb
        subst hb
        have hnx := List.find?_eq_none.mp hfq x hx
        rw [queueMatches_iff] at hnx
        rintro ⟨hh, hd⟩
        exact hnx ⟨hd, hh⟩
  | some t =>
      obtain ⟨q, hfq, hqt⟩ : ∃ q, findQueue db hospitalId deptId = some q ∧ q.totalTokens = t := by
        unfold readTotalTokens at hr
        rcases Option.map_eq_some'.mp hr with ⟨q, hq, hqt⟩
        exact ⟨q, hq, hqt⟩
      constructor
      · intro r' hr'
        rcases List.mem_map.mp hr' with ⟨r, hrm, rfl⟩
        by_cases hm : queueMatches hospitalId deptId r = true
        · have h2' : db.queues.Pairwise (fun x y => ¬ sameKey x y) := h2
          have hfr : db.queues.find? (queueMatches hospitalId deptId) = some r :=
            find?_eq_some_of_pairwise queueMatches_sameKey hm h2' hrm
          have hrq : r = q := by
            rw [show findQueue db hospitalId deptId =
              db.queues.find? (queueMatches hospitalId deptId) from rfl, hfr] at hfq
            exact Option.some.inj hfq
          unfold setTotal
          rw [if_pos hm]
          show r.currentToken ≤ t + 1
          have hb := h1 r hrm
          have hrt : r.totalTokens = t := by rw [hrq, hqt]
          omega
        · rw [setTotal_fix (fun hc => hm (queueMatches_iff.mpr hc))]
          exact h1 r hrm
      · have h2' : db.queues.Pairwise (fun x y => ¬ sameKey x y) := h2
        show (db.queues.map (setTotal hospitalId deptId (t + 1))).Pairwise _
        apply List.Pairwise.map _ ?_ h2'
        intro a b hab hcontra
        exact hab ((sameKey_setTotal hospitalId deptId (t + 1) a b).mp hcontra)

/-- Booking keeps the queue invariant and key uniqueness (the appointment
insert does not touch the `queue_status` table). -/
theorem book_QInv_keys (apptId hospitalId deptId : Nat) (db : DB)
    (h1 : QInv db) (h2 : KeysNodup db) :
    QInv (bookAppointment apptId hospitalId deptId db).2 ∧
      KeysNodup (bookAppointment apptId hospitalId deptId db).2 :=
  gen_QInv_keys hospitalId deptId db h1 h2

/-- Resetting keeps the queue invariant (`0 ≤ 0`) and key uniqueness. -/
theorem reset_QInv_keys (uid hospitalId deptId : Nat) (db : DB)
    (h1 : QInv db) (h2 : KeysNodup db) :
    QInv (reset_department_queue uid hospitalId deptId db).2 ∧
      KeysNodup (reset_department_queue uid hospitalId deptId db).2 := by
  unfold reset_department_queue
  by_cases hA : isAdmin db uid hospitalId = true
  · rw [hA]
    constructor
    · intro r' hr'
      rcases List.mem_map.mp hr' with ⟨r, hrm, rfl⟩
      unfold zeroQueue
      split
      · exact Nat.le_refl 0
      · exact h1 r hrm
    · have h2' : db.queues.Pairwise (fun x y => ¬ sameKey x y) := h2
      show (db.queues.map (zeroQueue hospitalId deptId)).Pairwise _
      apply List.Pairwise.map _ ?_ h2'
      intro a b hab hcontra
      exact hab ((sameKey_zeroQueue hospitalId deptId a b).mp hcontra)
  · rw [Bool.not_eq_true] at hA
    rw [hA]
    exact ⟨h1, h2⟩

theorem runOps_book_reset_QInv :
    ∀ (ops : List Op) (db : DB), QInv db → KeysNodup db → OnlyBookReset ops →
      QInv (runOps db ops) ∧ KeysNodup (runOps db ops) := by
  intro ops
  induction ops with
  | nil => intro db h1 h2 _; exact ⟨h1, h2⟩
  | cons op ops ih =>
      intro db h1 h2 hops
      have hop := hops op (List.mem_cons_self op ops)
      have hrest : OnlyBookReset ops := fun o ho => hops o (List.mem_cons_of_mem op ho)
      show QInv (runOps (applyOp db op) ops) ∧ KeysNodup (runOps (applyOp db op) ops)
      cases op with
      | book apptId h d =>
          obtain ⟨k1, k2⟩ := book_QInv_keys apptId h d db h1 h2
          exact ih (applyOp db (Op.book apptId h d)) k1 k2 hrest
      | advance uid h d =>
          simp [isBook, isReset] at hop
      | reset uid h d =>
          obtain ⟨k1, k2⟩ := reset_QInv_keys uid h d db h1 h2
          exact ih (applyOp db (Op.reset uid h d)) k1 k2 hrest

/-- C2 (amended): `currentToken ≤ totalIssued` is preserved by every
sequence of booking and `ResetQueue` operations (given the schema's unique
key on `queue_status`), but it is not an invariant of the full operation
set: `AdvanceQueue` freely pushes `currentToken` past `totalIssued`
(see `C2_counterexample`). -/
theorem C2_book_reset_invariant (db : DB) (ops : List Op)
    (h1 : QInv db) (h2 : KeysNodup db) (hops : OnlyBookReset ops) :
    QInv (runOps db ops) :=
  (runOps_book_reset_QInv ops db h1 h2 hops).1

/-- C2 witness: two bookings and a reset from the fresh state keep the
invariant. -/
theorem C2_book_reset_invariant_witness :
    QInv dbFresh ∧ KeysNodup dbFresh ∧
      OnlyBookReset [Op.book 100 1 1, Op.book 101 1 1, Op.reset 9 1 1] ∧
      QInv (runOps dbFresh [Op.book 100 1 1, Op.book 101 1 1, Op.reset 9 1 1]) :=
  ⟨by decide, by decide, by decide,
    C2_book_reset_invariant dbFresh [Op.book 100 1 1, Op.book 101 1 1, Op.reset 9 1 1]
      (by decide) (by decide) (by decide)⟩

/-! ### How each operation moves `totalIssued` -/

theorem totalOf_eq (db : DB) (hospitalId deptId : Nat) :
    totalOf db hospitalId deptId =
      ((findQueue db hospitalId deptId).map QueueStatus.totalTokens).getD 0 := by
  unfold totalOf
  cases findQueue db hospitalId deptId <;> rfl

theorem totalOf_gen_same (hospitalId deptId : Nat) (db : DB) :
    totalOf (generateTokenNumber hospitalId deptId db).2 hospitalId deptId =
      totalOf db hospitalId deptId + 1 := by
  cases hQ : findQueue db hospitalId deptId with
  | none =>
      obtain ⟨_, h2⟩ := findQueue_gen_none hQ
      rw [totalOf_eq, h2, totalOf_eq, hQ]
      rfl
  | some q =>
      obtain ⟨_, h2⟩ := findQueue_gen_some hQ
      rw [totalOf_eq, h2, totalOf_eq, hQ]
      rfl

theorem findQueue_gen_other (hospitalId deptId h' d' : Nat) (db : DB)
    (hne : ¬(h' = hospitalId ∧ d' = deptId)) :
    findQueue (generateTokenNumber hospitalId deptId db).2 h' d' = findQueue db h' d' := by
  unfold generateTokenNumber
  cases hr : readTotalTokens hospitalId deptId db with
  | none =>
      show (db.queues ++ [(⟨hospitalId, deptId, 0, 1⟩ : QueueStatus)]).find?
          (queueMatches h' d') = _
      rw [List.find?_append]
      have hone : ([(⟨hospitalId, deptId, 0, 1⟩ : QueueStatus)]).find?
          (queueMatches h' d') = none := by
        rw [List.find?_eq_none]
        intro x hx
        rw [List.mem_singleton] at hx
        subst hx
        rw [queueMatches_iff]
        rintro ⟨hd, hh⟩
        exact hne ⟨hh.symm, hd.symm⟩
      rw [hone]
      exact Option.or_none
  | some t =>
      show (db.queues.map (setTotal hospitalId deptId (t + 1))).find? (queueMatches h' d') = _
      exact findQueue_map_other _ (setTotal_matches hospitalId deptId (t + 1) h' d')
        (fun r hr2 => setTotal_fix hr2) hne db.queues

theorem totalOf_gen_other (hospitalId deptId h' d' : Nat) (db : DB)
    (hne : ¬(h' = hospitalId ∧ d' = deptId)) :
    totalOf (generateTokenNumber hospitalId deptId db).2 h' d' = totalOf db h' d' := by
  rw [totalOf_eq, findQueue_gen_other hospitalId deptId h' d' db hne, ← totalOf_eq]

theorem totalOf_advance (uid hospitalId deptId h' d' : Nat) (db : DB) :
    totalOf (advance_queue uid hospitalId deptId db).2 h' d' = totalOf db h' d' := by
  unfold advance_queue
  by_cases hA : isAdmin db uid hospitalId = true
  · rw [hA]
    cases hQ : findQueue db hospitalId deptId with
    | none => rfl
    | some q =>
        rw [totalOf_eq, totalOf_eq]
        show (((db.queues.map (setCurrent hospitalId deptId (q.currentToken + 1))).find?
            (queueMatches h' d')).map QueueStatus.totalTokens).getD 0 = _
        rw [find?_map_pres _ _ (setCurrent_matches hospitalId deptId (q.currentToken + 1) h' d'),
          show findQueue db h' d' = db.queues.find? (queueMatches h' d') from rfl]
        cases db.queues.find? (queueMatches h' d') with
        | none => rfl
        | some r =>
            show (some (setCurrent hospitalId deptId (q.currentToken + 1) r).totalTokens).getD 0 = _
            rw [setCurrent_totalTokens]
            rfl
  · rw [Bool.not_eq_true] at hA
    rw [hA]
    rfl

theorem totalOf_book_same (apptId hospitalId deptId : Nat) (db : DB) :
    totalOf (bookAppointment apptId hospitalId deptId db).2 hospitalId deptId =
      totalOf db hospitalId deptId + 1 :=
  totalOf_gen_same hospitalId deptId db

theorem totalOf_book_other (apptId hospitalId deptId h' d' : Nat) (db : DB)
    (hne : ¬(h' = hospitalId ∧ d' = deptId)) :
    totalOf (bookAppointment apptId hospitalId deptId db).2 h' d' = totalOf db h' d' :=
  totalOf_gen_other hospitalId deptId h' d' db hne

theorem bookAppointment_appointments (apptId hospitalId deptId : Nat) (db : DB) :
    (bookAppointment apptId hospitalId deptId db).2.appointments =
      db.appointments ++
        [⟨apptId, hospitalId, deptId, totalOf db hospitalId deptId + 1, Status.waiting⟩] := by
  show (generateTokenNumber hospitalId deptId db).2.appointments ++
      [(⟨apptId, hospitalId, deptId, (generateTokenNumber hospitalId deptId db).1,
        Status.waiting⟩ : Appointment)] = _
  rw [generateTokenNumber_appointments, generateTokenNumber_result]

/-! ### Token uniqueness under booking and advancing -/

theorem rel_markReady (hospitalId deptId n : Nat) (a b : Appointment)
    (h : sameDept a b → a.tokenNumber ≠ b.tokenNumber) :
    sameDept (markReady hospitalId deptId n a) (markReady hospitalId deptId n b) →
      (markReady hospitalId deptId n a).tokenNumber ≠
        (markReady hospitalId deptId n b).tokenNumber := by
  unfold sameDept
  rw [markReady_hospitalId, markReady_hospitalId, markReady_departmentId,
    markReady_departmentId, markReady_tokenNumber, markReady_tokenNumber]
  exact h

theorem rel_markCompleted (hospitalId deptId n : Nat) (a b : Appointment)
    (h : sameDept a b → a.tokenNumber ≠ b.tokenNumber) :
    sameDept (markCompleted hospitalId deptId n a) (markCompleted hospitalId deptId n b) →
      (markCompleted hospitalId deptId n a).tokenNumber ≠
        (markCompleted hospitalId deptId n b).tokenNumber := by
  unfold sameDept
  rw [markCompleted_hospitalId, markCompleted_hospitalId, markCompleted_departmentId,
    markCompleted_departmentId, markCompleted_tokenNumber, markCompleted_tokenNumber]
  exact h

/-- Booking keeps every token in `1..totalIssued` and all tokens of one
department distinct: the new appointment gets `totalIssued + 1`, strictly
above every token already present in its department. -/
theorem book_TokInv_unique (apptId hospitalId deptId : Nat) (db : DB)
    (h1 : TokInv db) (h2 : TokensUnique db) :
    TokInv (bookAppointment apptId hospitalId deptId db).2 ∧
      TokensUnique (bookAppointment apptId hospitalId deptId db).2 := by
  constructor
  · intro a ha
    rw [bookAppointment_appointments] at ha
    rcases List.mem_append.mp ha with h | h
    · obtain ⟨hge, hle⟩ := h1 a h
      refine ⟨hge, ?_⟩
      by_cases hk : a.hospitalId = hospitalId ∧ a.departmentId = deptId
      · rw [hk.1, hk.2] at hle ⊢
        rw [totalOf_book_same]
        exact Nat.le_trans hle (Nat.le_succ _)
      · rw [totalOf_book_other apptId hospitalId deptId a.hospitalId a.departmentId db hk]
        exact hle
    · rw [List.mem_singleton] at h
      subst h
      refine ⟨Nat.succ_le_succ (Nat.zero_le _), ?_⟩
      show totalOf db hospitalId deptId + 1 ≤
        totalOf (bookAppointment apptId hospitalId deptId db).2 hospitalId deptId
      rw [totalOf_book_same]
  · show ((bookAppointment apptId hospitalId deptId db).2.appointments).Pairwise _
    rw [bookAppointment_appointments, List.pairwise_append]
    refine ⟨h2, by simp, ?_⟩
    intro x hx b hb
    rw [List.mem_singleton] at hb
    subst hb
    rintro ⟨hxh, hxd⟩
    obtain ⟨_, hle⟩ := h1 x hx
    show x.tokenNumber ≠ totalOf db hospitalId deptId + 1
    have hxh' : x.hospitalId = hospitalId := hxh
    have hxd' : x.departmentId = deptId := hxd
    rw [hxh', hxd'] at hle
    omega

/-- Advancing touches no token, no department field and no `totalIssued`,
so both token properties survive it. -/
theorem advance_TokInv_unique (uid hospitalId deptId : Nat) (db : DB)
    (h1 : TokInv db) (h2 : TokensUnique db) :
    TokInv (advance_queue uid hospitalId deptId db).2 ∧
      TokensUnique (advance_queue uid hospitalId deptId db).2 := by
  have happts : (advance_queue uid hospitalId deptId db).2.appointments = db.appointments
      ∨ ∃ n, (advance_queue uid hospitalId deptId db).2.appointments =
          (db.appointments.map (markReady hospitalId deptId n)).map
            (markCompleted hospitalId deptId n) := by
    unfold advance_queue
    by_cases hA : isAdmin db uid hospitalId = true
    · rw [hA]
      cases findQueue db hospitalId deptId with
      | none => exact Or.inl rfl
      | some q => exact Or.inr ⟨q.currentToken + 1, rfl⟩
    · rw [Bool.not_eq_true] at hA
      rw [hA]
      exact Or.inl rfl
  constructor
  · intro a' ha'
    rcases happts with he | ⟨n, he⟩
    · rw [he] at ha'
      obtain ⟨hge, hle⟩ := h1 a' ha'
      refine ⟨hge, ?_⟩
      rw [totalOf_advance]
      exact hle
    · rw [he] at ha'
      rcases List.mem_map.mp ha' with ⟨a1, ha1, rfl⟩
      rcases List.mem_map.mp ha1 with ⟨a, ha, rfl⟩
      obtain ⟨hge, hle⟩ := h1 a ha
      rw [markCompleted_tokenNumber, markReady_tokenNumber,
        markCompleted_hospitalId, markReady_hospitalId,
        markCompleted_departmentId, markReady_departmentId,
        totalOf_advance]
      exact ⟨hge, hle⟩
  · rcases happts with he | ⟨n, he⟩
    · show ((advance_queue uid hospitalId deptId db).2.appointments).Pairwise _
      rw [he]
      exact h2
    · show ((advance_queue uid hospitalId deptId db).2.appointments).Pairwise _
      rw [he]
      exact List.Pairwise.map _ (rel_markCompleted hospitalId deptId n)
        (List.Pairwise.map _ (rel_markReady hospitalId deptId n) h2)

theorem runOps_book_advance_tokens :
    ∀ (ops : List Op) (db : DB), TokInv db → TokensUnique db → OnlyBookAdvance ops →
      TokInv (runOps db ops) ∧ TokensUnique (runOps db ops) := by
  intro ops
  induction ops with
  | nil => intro db h1 h2 _; exact ⟨h1, h2⟩
  | cons op ops ih =>
      intro db h1 h2 hops
      have hop := hops op (List.mem_cons_self op ops)
      have hrest : OnlyBookAdvance ops := fun o ho => hops o (List.mem_cons_of_mem op ho)
      show TokInv (runOps (applyOp db op) ops) ∧ TokensUnique (runOps (applyOp db op) ops)
      cases op with
      | book apptId h d =>
          obtain ⟨k1, k2⟩ := book_TokInv_unique apptId h d db h1 h2
          exact ih (applyOp db (Op.book apptId h d)) k1 k2 hrest
      | advance uid h d =>
          obtain ⟨k1, k2⟩ := advance_TokInv_unique uid h d db h1 h2
          exact ih (applyOp db (Op.advance uid h d)) k1 k2 hrest
      | reset uid h d =>
          simp [isBook, isAdvance] at hop

/-- C3 (amended): token uniqueness holds on every run without `ResetQueue`
— after any sequence of bookings and advances from a state whose tokens
already satisfy it (e.g. a fresh state), no two appointments of one
department share a token, cancelled or not, hence in particular no two
non-cancelled ones do. With resets the claim is false
(see `C3_counterexample`): a reset zeroes `totalIssued` while Ready
appointments survive, so a later booking reissues a surviving token. -/
theorem C3_no_reset_tokens_unique (db : DB) (ops : List Op)
    (h1 : TokInv db) (h2 : TokensUnique db) (hops : OnlyBookAdvance ops) :
    NonCancelledTokensUnique (runOps db ops) := by
  have h := (runOps_book_advance_tokens ops db h1 h2 hops).2
  exact List.Pairwise.imp (fun hab _ _ hd => hab hd) h

/-- C3 witness: two bookings and two advances from the fresh state. -/
theorem C3_no_reset_tokens_unique_witness :
    TokInv dbFresh ∧ TokensUnique dbFresh ∧
      OnlyBookAdvance [Op.book 100 1 1, Op.book 101 1 1, Op.advance 9 1 1, Op.advance 9 1 1] ∧
      NonCancelledTokensUnique
        (runOps dbFresh
          [Op.book 100 1 1, Op.book 101 1 1, Op.advance 9 1 1, Op.advance 9 1 1]) :=
  ⟨by decide, by decide, by decide,
    C3_no_reset_tokens_unique dbFresh
      [Op.book 100 1 1, Op.book 101 1 1, Op.advance 9 1 1, Op.advance 9 1 1]
      (by decide) (by decide) (by decide)⟩

/-! ### A Waiting appointment whose token has already been passed -/

theorem currentOf_eq (db : DB) (hospitalId deptId : Nat) :
    currentOf db hospitalId deptId =
      ((findQueue db hospitalId deptId).map QueueStatus.currentToken).getD 0 := by
  unfold currentOf
  cases findQueue db hospitalId deptId <;> rfl

theorem advance_queue_not_admin (uid hospitalId deptId : Nat) (db : DB)
    (hA : isAdmin db uid hospitalId = false) :
    advance_queue uid hospitalId deptId db = (DbResult.error DBError.unauthorized, db) := by
  unfold advance_queue
  rw [hA]
  rfl

theorem advance_queue_no_row (uid hospitalId deptId : Nat) (db : DB)
    (hA : isAdmin db uid hospitalId = true)
    (hQ : findQueue db hospitalId deptId = none) :
    advance_queue uid hospitalId deptId db = (DbResult.ok none, db) := by
  unfold advance_queue
  rw [hA, hQ]
  rfl

theorem currentOf_advance_other (uid hospitalId deptId h' d' : Nat) (db : DB)
    (hne : ¬(h' = hospitalId ∧ d' = deptId)) :
    currentOf (advance_queue uid hospitalId deptId db).2 h' d' = currentOf db h' d' := by
  by_cases hA : isAdmin db uid hospitalId = true
  · cases hQ : findQueue db hospitalId deptId with
    | none => rw [advance_queue_no_row uid hospitalId deptId db hA hQ]
    | some q =>
        rw [currentOf_eq, currentOf_eq]
        have hfq : findQueue (advance_queue uid hospitalId deptId db).2 h' d' =
            findQueue db h' d' := by
          unfold advance_queue
          rw [hA, hQ]
          show (db.queues.map (setCurrent hospitalId deptId (q.currentToken + 1))).find?
              (queueMatches h' d') = _
          exact findQueue_map_other _ (setCurrent_matches hospitalId deptId _ h' d')
            (fun r hr => setCurrent_fix hr) hne db.queues
        rw [hfq]
  · rw [Bool.not_eq_true] at hA
    rw [advance_queue_not_admin uid hospitalId deptId db hA]

/-- One advance never promotes a Waiting appointment whose token is at or
below its department's `currentToken`: the only token promoted is
`currentToken + 1`, and `currentToken` never decreases. -/
theorem advance_keeps_starved (uid hospitalId deptId : Nat) (db : DB) (a : Appointment)
    (ha : a ∈ db.appointments) (hw : a.status = Status.waiting)
    (ht : a.tokenNumber ≤ currentOf db a.hospitalId a.departmentId) :
    a ∈ (advance_queue uid hospitalId deptId db).2.appointments ∧
      a.tokenNumber ≤ currentOf (advance_queue uid hospitalId deptId db).2
        a.hospitalId a.departmentId := by
  by_cases hA : isAdmin db uid hospitalId = true
  · cases hQ : findQueue db hospitalId deptId with
    | none =>
        rw [advance_queue_no_row uid hospitalId deptId db hA hQ]
        exact ⟨ha, ht⟩
    | some q =>
        obtain ⟨_, hfq, happ⟩ := advance_queue_some uid hospitalId deptId db q hA hQ
        by_cases hk : a.hospitalId = hospitalId ∧ a.departmentId = deptId
        · have hcur : currentOf db a.hospitalId a.departmentId = q.currentToken := by
            rw [currentOf_eq, hk.1, hk.2, hQ]
            rfl
          have hne : a.tokenNumber ≠ q.currentToken + 1 := by
            rw [hcur] at ht
            omega
          have hout : ¬(a.departmentId = deptId ∧ a.hospitalId = hospitalId ∧
              a.tokenNumber = q.currentToken + 1 ∧ a.status = Status.waiting) := by
            rintro ⟨_, _, h3, _⟩
            exact hne h3
          have hin : ¬(a.departmentId = deptId ∧ a.hospitalId = hospitalId ∧
              a.tokenNumber = q.currentToken ∧ a.status = Status.ready) := by
            rintro ⟨_, _, _, h4⟩
            rw [hw] at h4
            cases h4
          constructor
          · rw [happ]
            apply mem_map_self ha
            rw [if_neg hout, if_neg hin]
          · rw [currentOf_eq, hk.1, hk.2, hfq]
            show a.tokenNumber ≤ q.currentToken + 1
            rw [hcur] at ht
            omega
        · have hout : ¬(a.departmentId = deptId ∧ a.hospitalId = hospitalId ∧
              a.tokenNumber = q.currentToken + 1 ∧ a.status = Status.waiting) := by
            rintro ⟨h1, h2, _, _⟩
            exact hk ⟨h2, h1⟩
          have hin : ¬(a.departmentId = deptId ∧ a.hospitalId = hospitalId ∧
              a.tokenNumber = q.currentToken ∧ a.status = Status.ready) := by
            rintro ⟨h1, h2, _, _⟩
            exact hk ⟨h2, h1⟩
          constructor
          · rw [happ]
            apply mem_map_self ha
            rw [if_neg hout, if_neg hin]
          · rw [currentOf_advance_other uid hospitalId deptId a.hospitalId a.departmentId db hk]
            exact ht
  · rw [Bool.not_eq_true] at hA
    rw [advance_queue_not_admin uid hospitalId deptId db hA]
    exact ⟨ha, ht⟩

theorem advances_keep_starved :
    ∀ (ops : List Op) (db : DB) (a : Appointment), OnlyAdvance ops →
      a ∈ db.appointments → a.status = Status.waiting →
      a.tokenNumber ≤ currentOf db a.hospitalId a.departmentId →
      a ∈ (runOps db ops).appointments ∧
        a.tokenNumber ≤ currentOf (runOps db ops) a.hospitalId a.departmentId := by
  intro ops
  induction ops with
  | nil => intro db a _ h2 _ h4; exact ⟨h2, h4⟩
  | cons op ops ih =>
      intro db a hops h2 h3 h4
      have hop := hops op (List.mem_cons_self op ops)
      have hrest : OnlyAdvance ops := fun o ho => hops o (List.mem_cons_of_mem op ho)
      show a ∈ (runOps (applyOp db op) ops).appointments ∧
        a.tokenNumber ≤ currentOf (runOps (applyOp db op) ops) a.hospitalId a.departmentId
      cases op with
      | book apptId h d => simp [isAdvance] at hop
      | reset uid h d => simp [isAdvance] at hop
      | advance uid h d =>
          obtain ⟨k1, k2⟩ := advance_keeps_starved uid h d db a h2 h3 h4
          exact ih (applyOp db (Op.advance uid h d)) a hrest k1 h3 k2

/-- C10: booking assigns `totalIssued + 1` without consulting
`currentToken` (second conjunct); a Waiting appointment with token at or
below `currentToken` is reachable — an "empty" advance past `totalIssued`
followed by one booking produces it (first conjunct, a concrete run); and
from any state, any sequence of `AdvanceQueue` calls leaves such an
appointment present, Waiting, and still at or below `currentToken` — it is
never promoted to Ready (third conjunct). -/
theorem C10_starved_waiting :
    ((⟨100, 1, 1, 1, Status.waiting⟩ : Appointment) ∈
        (runOps dbFresh [Op.advance 9 1 1, Op.book 100 1 1]).appointments ∧
      (1 : Nat) ≤ currentOf (runOps dbFresh [Op.advance 9 1 1, Op.book 100 1 1]) 1 1) ∧
    (∀ (hospitalId deptId : Nat) (db : DB),
      (generateTokenNumber hospitalId deptId db).1 = totalOf db hospitalId deptId + 1) ∧
    (∀ (ops : List Op) (db : DB) (a : Appointment), OnlyAdvance ops →
      a ∈ db.appointments → a.status = Status.waiting →
      a.tokenNumber ≤ currentOf db a.hospitalId a.departmentId →
      a ∈ (runOps db ops).appointments ∧ a.status = Status.waiting ∧
        a.tokenNumber ≤ currentOf (runOps db ops) a.hospitalId a.departmentId) := by
  refine ⟨by decide, generateTokenNumber_result, ?_⟩
  intro ops db a hops h2 h3 h4
  obtain ⟨k1, k2⟩ := advances_keep_starved ops db a hops h2 h3 h4
  exact ⟨k1, h3, k2⟩

/-- C10 witness: the starved appointment of the concrete run stays Waiting
through two further advances. -/
theorem C10_starved_waiting_witness :
    OnlyAdvance [Op.advance 9 1 1, Op.advance 9 1 1] ∧
      (⟨100, 1, 1, 1, Status.waiting⟩ : Appointment) ∈
        (runOps dbFresh [Op.advance 9 1 1, Op.book 100 1 1]).appointments ∧
      ((⟨100, 1, 1, 1, Status.waiting⟩ : Appointment) ∈
        (runOps (runOps dbFresh [Op.advance 9 1 1, Op.book 100 1 1])
          [Op.advance 9 1 1, Op.advance 9 1 1]).appointments ∧
        (⟨100, 1, 1, 1, Status.waiting⟩ : Appointment).status = Status.waiting ∧
        (⟨100, 1, 1, 1, Status.waiting⟩ : Appointment).tokenNumber ≤
          currentOf (runOps (runOps dbFresh [Op.advance 9 1 1, Op.book 100 1 1])
            [Op.advance 9 1 1, Op.advance 9 1 1]) 1 1) :=
  ⟨by decide, by decide,
    C10_starved_waiting.2.2 [Op.advance 9 1 1, Op.advance 9 1 1]
      (runOps dbFresh [Op.advance 9 1 1, Op.book 100 1 1])
      ⟨100, 1, 1, 1, Status.waiting⟩ (by decide) (by decide) (by decide) (by decide)⟩

end ToQen
